import Mathlib

/-!
# MiniGramm — verification of the post/reaction data model

Shallow embedding of the MiniGramm photo-feed application:

* the shared reaction enumeration and the `Post` model with its
  `addReaction` method (`src/shared/types.ts`, `src/client/models/Post.ts`);
* the in-memory controller variant (`src/controllers/AppController.ts`):
  seeded feed, auto-incrementing numeric ids, prepend-on-create,
  find-and-increment on react;
* the client/server variant (`src/server/server.ts` and
  `src/server/models/PostModel.ts`): a document store holding server
  documents, the three REST handlers (list, create, react), and the
  `PostDTO` boundary type.

Reaction counts are embedded as `Int` (JavaScript numbers on the counter
paths hold integral values: schema default `0`, seed literals, and `+ 1`
increments), so non-negativity is a proved invariant rather than a typing
artifact.
-/

namespace MiniGramm

/-- `ReactionType` from `src/shared/types.ts`:
`type ReactionType = "like" | "wow" | "laugh"`. -/
inductive ReactionType where
  | like
  | wow
  | laugh
deriving DecidableEq, Repr

/-- The string literal a `ReactionType` value denotes in the TypeScript
union type. -/
def ReactionType.str : ReactionType → String
  | .like => "like"
  | .wow => "wow"
  | .laugh => "laugh"

/-- `Record<ReactionType, number>`: the reaction-counter record. The
TypeScript record type forces exactly the three keys `like`, `wow`,
`laugh` to be present, which the three fields of this structure mirror. -/
structure Reactions where
  like : Int
  wow : Int
  laugh : Int
deriving DecidableEq, Repr

/-- Look up the counter stored under one reaction key. -/
def Reactions.get (r : Reactions) : ReactionType → Int
  | .like => r.like
  | .wow => r.wow
  | .laugh => r.laugh

/-- The default counter record `{ like: 0, wow: 0, laugh: 0 }` used by the
`Post` constructor default and by the Mongoose schema defaults. -/
def Reactions.zero : Reactions := { like := 0, wow := 0, laugh := 0 }

/-- `this.reactions[type] = (this.reactions[type] ?? 0) + 1` specialised to
a record that has all three keys present (as `Record<ReactionType, number>`
guarantees), so the `?? 0` branch is never taken. -/
def Reactions.addReaction (r : Reactions) : ReactionType → Reactions
  | .like => { r with like := r.like + 1 }
  | .wow => { r with wow := r.wow + 1 }
  | .laugh => { r with laugh := r.laugh + 1 }

/-- The `Post` model of the in-memory variant
(`src/controllers/AppController.ts` constructs it via
`new Post(this.nextId++, imageUrl, caption)`): numeric auto-increment id,
image URL, caption, reaction counters defaulting to all-zero. -/
structure Post where
  id : Nat
  imageUrl : String
  caption : String
  reactions : Reactions := Reactions.zero
deriving DecidableEq, Repr

/-- `Post.addReaction` from `src/client/models/Post.ts` lines 34–36:
increments the counter of the specified reaction type. -/
def Post.addReaction (p : Post) (t : ReactionType) : Post :=
  { p with reactions := p.reactions.addReaction t }

/-! ## In-memory variant: `AppController` -/

/-- The mutable state of the in-memory `AppController`: the `posts` array
and the auto-incrementing `nextId` counter (initialised to `1`). -/
structure MemState where
  posts : List Post
  nextId : Nat
deriving DecidableEq, Repr

/-- Controller state at construction time: empty feed, `nextId = 1`. -/
def MemState.initial : MemState := { posts := [], nextId := 1 }

/-- `AppController.seed`: replaces the feed with the two demo posts,
consuming `nextId` twice (`this.nextId++` for each). -/
def MemState.seed (s : MemState) : MemState :=
  { posts :=
      [ { id := s.nextId
          imageUrl := "https://plus.unsplash.com/premium_photo-1700838996339-de3bd9663344?q=80&w=1972&auto=format&fit=crop&ixlib=rb-4.1.0&ixid=M3wxMjA3fDB8MHxwaG90by1wYWdlfHx8fGVufDB8fHx8fA%3D%3D"
          caption := "Decorated christmas tree"
          reactions := { like := 8, wow := 2, laugh := 1 } },
        { id := s.nextId + 1
          imageUrl := "https://images.unsplash.com/photo-1619911112608-54e938faef00?q=80&w=1974&auto=format&fit=crop&ixlib=rb-4.1.0&ixid=M3wxMjA3fDB8MHxwaG90by1wYWdlfHx8fGVufDB8fHx8fA%3D%3D"
          caption := "Neige à Paris"
          reactions := { like := 5, wow := 1, laugh := 0 } } ]
    nextId := s.nextId + 2 }

/-- Outcome of `handleCreatePost` as observed through the view: either the
validation message shown on empty input, or the newly created post. -/
inductive MemCreateOutcome where
  | invalidInput (message : String)
  | created (post : Post)
deriving DecidableEq, Repr

/-- `AppController.handleCreatePost`: validates that both inputs are
non-empty (JavaScript `!imageUrl || !caption`, which for strings tests
emptiness), then constructs `new Post(this.nextId++, imageUrl, caption)`
and prepends it: `this.posts = [post, ...this.posts]`. On validation
failure the state is untouched. -/
def MemState.handleCreatePost (s : MemState) (imageUrl caption : String) :
    MemState × MemCreateOutcome :=
  if imageUrl = "" || caption = "" then
    (s, .invalidInput "Image URL and caption are required!")
  else
    let post : Post := { id := s.nextId, imageUrl := imageUrl, caption := caption }
    ({ posts := post :: s.posts, nextId := s.nextId + 1 }, .created post)

/-- `this.posts.find((post) => post.id === postId)` followed by an in-place
`found.addReaction(reaction)`: the first post whose id matches is replaced
by its incremented copy; when none matches the list is returned unchanged
(the handler's early `return`). -/
def reactFirst (postId : Nat) (reaction : ReactionType) : List Post → List Post
  | [] => []
  | p :: ps =>
      if p.id = postId then p.addReaction reaction :: ps
      else p :: reactFirst postId reaction ps

/-- `AppController.handleReact`: find the post by id and increment the
requested counter; a miss leaves the state unchanged. -/
def MemState.handleReact (s : MemState) (postId : Nat) (reaction : ReactionType) :
    MemState :=
  { s with posts := reactFirst postId reaction s.posts }

/-! ## Client/server variant: document store and REST handlers -/

/-- A server-side post document as stored in MongoDB through
`PostModel` (`src/server/models/PostModel.ts`): the `IPost` fields
`imageUrl`, `caption`, `reactions` plus the store-assigned `_id` and the
Mongoose-internal version key `__v` — server-only metadata that must not
cross the API boundary. -/
structure ServerDoc where
  _id : String
  imageUrl : String
  caption : String
  reactions : Reactions
  __v : Nat
deriving DecidableEq, Repr

/-- `PostDTO` from `src/shared/types.ts`: the exact shape of a post as
sent over the network — the store id serialized as a string, the image
URL, the caption, and the three reaction counts. Nothing else. -/
structure PostDTO where
  _id : String
  imageUrl : String
  caption : String
  reactions : Reactions
deriving DecidableEq, Repr

/-- The DTO projection every server handler performs:
`{ _id: doc._id.toString(), imageUrl: doc.imageUrl, caption: doc.caption,
reactions: doc.reactions }`. -/
def ServerDoc.toDTO (doc : ServerDoc) : PostDTO :=
  { _id := doc._id
    imageUrl := doc.imageUrl
    caption := doc.caption
    reactions := doc.reactions }

/-- Modelled from the spec: MongoDB's ObjectId allocation, which is not in
this repository (it lives inside the database collaborator). The spec
requires "a globally unique string identifier assigned by the store at
creation time and never reassigned"; any injective allocator is a faithful
model, so the `n`-th allocated id is the string of `n + 1` repetitions of
`'a'`. -/
def freshOid (n : Nat) : String := String.mk (List.replicate (n + 1) 'a')

/-- Modelled from the spec: the state of the `posts` MongoDB collection —
documents in insertion order (the "store's natural order" returned by an
unsorted `find()`), plus the allocator state for fresh ObjectIds. -/
structure MongoStore where
  docs : List ServerDoc
  nextOid : Nat
deriving DecidableEq, Repr

/-- A store holding no documents, with no ids allocated yet. -/
def MongoStore.empty : MongoStore := { docs := [], nextOid := 0 }

/-- `PostModel.findById(id)`: the document with the matching `_id`, if
any. -/
def MongoStore.findById (st : MongoStore) (id : String) : Option ServerDoc :=
  st.docs.find? (fun d => d._id = id)

/-- `doc.save()` on a fetched document: the stored document with the same
`_id` is replaced by the updated one (document identity is preserved). -/
def saveDoc (doc : ServerDoc) : List ServerDoc → List ServerDoc
  | [] => []
  | d :: ds => if d._id = doc._id then doc :: ds else d :: saveDoc doc ds

/-- The error responses the handlers can produce: HTTP 400 with a message
(invalid input) or HTTP 404 with a message (post not found). -/
inductive ApiError where
  | invalidInput (message : String)
  | notFound (message : String)
deriving DecidableEq, Repr

/-- The JSON body of a `POST /api/posts` request. A client may send any
fields it likes; besides `imageUrl` and `caption` we model a
client-supplied `reactions` object and arbitrary further key/value pairs.
The handler destructures only `imageUrl` and `caption` from the body. -/
structure CreateBody where
  imageUrl : String
  caption : String
  reactions : Option Reactions := none
  extra : List (String × String) := []
deriving DecidableEq, Repr

/-- `GET /api/posts` (`src/server/server.ts`): `PostModel.find().lean()`
with no sort — the documents in the store's natural (insertion) order —
each mapped to a `PostDTO`. -/
def MongoStore.listPosts (st : MongoStore) : List PostDTO :=
  st.docs.map ServerDoc.toDTO

/-- `POST /api/posts` (`src/server/server.ts`): destructures
`{ imageUrl, caption }` from the body; if either is empty
(JavaScript-falsy), responds 400 `"Missing imageUrl or caption"` touching
nothing; otherwise `PostModel.create({ imageUrl, caption })` persists a new
document — fresh store-assigned `_id`, schema defaults
`{like: 0, wow: 0, laugh: 0}` for `reactions` — and responds 201 with its
DTO. -/
def MongoStore.createPost (st : MongoStore) (body : CreateBody) :
    Except ApiError PostDTO × MongoStore :=
  if body.imageUrl = "" || body.caption = "" then
    (.error (.invalidInput "Missing imageUrl or caption"), st)
  else
    let doc : ServerDoc :=
      { _id := freshOid st.nextOid
        imageUrl := body.imageUrl
        caption := body.caption
        reactions := Reactions.zero
        __v := 0 }
    (.ok doc.toDTO, { docs := st.docs ++ [doc], nextOid := st.nextOid + 1 })

/-- The validation `["like", "wow", "laugh"].includes(reaction)` applied to
the free-form string from the request body, returning the matched
reaction kind. -/
def parseReaction (s : String) : Option ReactionType :=
  if s = "like" then some .like
  else if s = "wow" then some .wow
  else if s = "laugh" then some .laugh
  else none

/-- `POST /api/posts/:id/react` (`src/server/server.ts`): first validates
the reaction string against the closed three-value set (400
`"Invalid reaction type"` otherwise), then `findById` (404
`"Post not found"` when absent), then
`doc.reactions[reaction] = (doc.reactions[reaction] ?? 0) + 1` followed by
`doc.save()`, responding 200 with the updated document's DTO. Failures
leave the store untouched. -/
def MongoStore.reactToPost (st : MongoStore) (id : String) (reaction : String) :
    Except ApiError PostDTO × MongoStore :=
  match parseReaction reaction with
  | none => (.error (.invalidInput "Invalid reaction type"), st)
  | some kind =>
      match st.findById id with
      | none => (.error (.notFound "Post not found"), st)
      | some doc =>
          let updated : ServerDoc := { doc with reactions := doc.reactions.addReaction kind }
          (.ok updated.toDTO, { st with docs := saveDoc updated st.docs })

/-- One API request against the persisted store, for stating lifetime
invariants over arbitrary operation sequences. (`GET /api/posts` never
writes, so it does not appear.) -/
inductive ServerOp where
  | create (body : CreateBody)
  | react (id : String) (reaction : String)
deriving DecidableEq, Repr

/-- The store produced by handling one request. -/
def MongoStore.applyOp (st : MongoStore) : ServerOp → MongoStore
  | .create body => (st.createPost body).2
  | .react id reaction => (st.reactToPost id reaction).2

/-- The store produced by handling a sequence of requests in order. -/
def MongoStore.applyOps (st : MongoStore) (ops : List ServerOp) : MongoStore :=
  ops.foldl MongoStore.applyOp st

/-! ## Helper lemmas -/

theorem Reactions.get_addReaction_self (r : Reactions) (k : ReactionType) :
    (r.addReaction k).get k = r.get k + 1 := by
  cases k <;> rfl

theorem Reactions.get_addReaction_of_ne (r : Reactions) {k k' : ReactionType}
    (h : k' ≠ k) : (r.addReaction k).get k' = r.get k' := by
  cases k <;> cases k' <;> first | rfl | exact absurd rfl h

theorem Reactions.ext_get {r r' : Reactions} (h : ∀ k, r.get k = r'.get k) :
    r = r' := by
  cases r; cases r'
  have hl := h .like
  have hw := h .wow
  have hh := h .laugh
  simp only [Reactions.get] at hl hw hh
  simp_all

theorem parseReaction_str (k : ReactionType) : parseReaction k.str = some k := by
  cases k <;> rfl

theorem parseReaction_eq_none_iff (s : String) :
    parseReaction s = none ↔ s ≠ "like" ∧ s ≠ "wow" ∧ s ≠ "laugh" := by
  unfold parseReaction
  split
  · simp_all
  · split
    · simp_all
    · split <;> simp_all

theorem find?_saveDoc_of_ne (u : ServerDoc) (id : String) (hne : id ≠ u._id) :
    ∀ docs : List ServerDoc,
      (saveDoc u docs).find? (fun d => d._id = id) =
        docs.find? (fun d => d._id = id)
  | [] => rfl
  | d :: ds => by
    by_cases hd : d._id = u._id
    · have hu : ¬ (u._id = id) := fun h => hne h.symm
      have hdi : ¬ (d._id = id) := by rw [hd]; exact hu
      simp only [saveDoc, if_pos hd]
      rw [List.find?_cons_of_neg _ (by simpa using hu),
        List.find?_cons_of_neg _ (by simpa using hdi)]
    · simp only [saveDoc, if_neg hd]
      by_cases hdi : d._id = id
      · rw [List.find?_cons_of_pos _ (by simpa using hdi),
          List.find?_cons_of_pos _ (by simpa using hdi)]
      · rw [List.find?_cons_of_neg _ (by simpa using hdi),
          List.find?_cons_of_neg _ (by simpa using hdi)]
        exact find?_saveDoc_of_ne u id hne ds

theorem find?_saveDoc_self (u doc : ServerDoc) (h2 : doc._id = u._id) :
    ∀ docs : List ServerDoc,
      docs.find? (fun d => d._id = u._id) = some doc →
      (saveDoc u docs).find? (fun d => d._id = u._id) = some u
  | [] => by intro hfind; simp at hfind
  | d :: ds => by
    intro hfind
    by_cases hd : d._id = u._id
    · simp only [saveDoc, if_pos hd]
      exact List.find?_cons_of_pos _ (by simp)
    · simp only [saveDoc, if_neg hd]
      rw [List.find?_cons_of_neg _ (by simpa using hd)] at hfind
      rw [List.find?_cons_of_neg _ (by simpa using hd)]
      exact find?_saveDoc_self u doc h2 ds hfind

theorem find?_saveDoc_key (u doc : ServerDoc) (id : String) (hu : u._id = id) :
    ∀ docs : List ServerDoc,
      docs.find? (fun d => d._id = id) = some doc →
      (saveDoc u docs).find? (fun d => d._id = id) = some u
  | [] => by intro hfind; simp at hfind
  | d :: ds => by
    intro hfind
    by_cases hd : d._id = u._id
    · simp only [saveDoc, if_pos hd]
      exact List.find?_cons_of_pos _ (by simpa using hu)
    · have hdi : ¬ (d._id = id) := by rw [← hu]; exact hd
      simp only [saveDoc, if_neg hd]
      rw [List.find?_cons_of_neg _ (by simpa using hdi)] at hfind
      rw [List.find?_cons_of_neg _ (by simpa using hdi)]
      exact find?_saveDoc_key u doc id hu ds hfind

theorem mem_saveDoc (u : ServerDoc) :
    ∀ docs : List ServerDoc, ∀ d ∈ saveDoc u docs, d ∈ docs ∨ d = u
  | [], d, hd => by simp [saveDoc] at hd
  | d₀ :: ds, d, hd => by
    by_cases h : d₀._id = u._id
    · simp only [saveDoc, h, if_true, List.mem_cons] at hd
      rcases hd with h1 | h2
      · right; exact h1
      · left; exact List.mem_cons_of_mem _ h2
    · simp only [saveDoc, h, if_false, List.mem_cons] at hd
      rcases hd with h1 | h2
      · left; exact h1 ▸ List.mem_cons_self _ _
      · rcases mem_saveDoc u ds d h2 with h3 | h4
        · left; exact List.mem_cons_of_mem _ h3
        · right; exact h4

theorem findById_id {st : MongoStore} {id : String} {doc : ServerDoc}
    (h : st.findById id = some doc) : doc._id = id := by
  have := List.find?_some h
  simpa using this

theorem findById_mem {st : MongoStore} {id : String} {doc : ServerDoc}
    (h : st.findById id = some doc) : doc ∈ st.docs :=
  List.mem_of_find?_eq_some h

theorem freshOid_injective {m n : Nat} (h : freshOid m = freshOid n) : m = n := by
  unfold freshOid at h
  have hdata : List.replicate (m + 1) 'a' = List.replicate (n + 1) 'a' := by
    injection h
  have hlen := congrArg List.length hdata
  simpa using hlen

/-- `N` applications of `addReaction` with the same kind. -/
def Reactions.addN (r : Reactions) (k : ReactionType) : Nat → Reactions
  | 0 => r
  | n + 1 => (r.addReaction k).addN k n

theorem Reactions.get_addN_self (k : ReactionType) :
    ∀ (N : Nat) (r : Reactions), (r.addN k N).get k = r.get k + (N : Int)
  | 0, r => by simp [Reactions.addN]
  | N + 1, r => by
    rw [Reactions.addN, Reactions.get_addN_self k N, Reactions.get_addReaction_self]
    push_cast
    ring

theorem Reactions.get_addN_of_ne {k k' : ReactionType} (h : k' ≠ k) :
    ∀ (N : Nat) (r : Reactions), (r.addN k N).get k' = r.get k'
  | 0, r => rfl
  | N + 1, r => by
    rw [Reactions.addN, Reactions.get_addN_of_ne h N, Reactions.get_addReaction_of_ne r h]

theorem reactToPost_found (st : MongoStore) (doc : ServerDoc) (k : ReactionType)
    (h : st.findById doc._id = some doc) :
    st.reactToPost doc._id k.str =
      (.ok ({ doc with reactions := doc.reactions.addReaction k } : ServerDoc).toDTO,
        { st with
            docs := saveDoc { doc with reactions := doc.reactions.addReaction k } st.docs }) := by
  simp only [MongoStore.reactToPost, parseReaction_str, h]

theorem findById_after_react (st : MongoStore) (doc : ServerDoc) (k : ReactionType)
    (h : st.findById doc._id = some doc) :
    (st.applyOp (.react doc._id k.str)).findById doc._id =
      some { doc with reactions := doc.reactions.addReaction k } := by
  have hstep := reactToPost_found st doc k h
  simp only [MongoStore.applyOp, hstep, MongoStore.findById]
  exact find?_saveDoc_self { doc with reactions := doc.reactions.addReaction k } doc rfl
    st.docs h

theorem findById_after_react_iterate (k : ReactionType) :
    ∀ (N : Nat) (st : MongoStore) (doc : ServerDoc),
      st.findById doc._id = some doc →
      (st.applyOps (List.replicate N (.react doc._id k.str))).findById doc._id =
        some { doc with reactions := doc.reactions.addN k N }
  | 0, st, doc, h => by simpa [MongoStore.applyOps] using h
  | N + 1, st, doc, h => by
    have hstep := findById_after_react st doc k h
    have ih := findById_after_react_iterate k N (st.applyOp (.react doc._id k.str))
      { doc with reactions := doc.reactions.addReaction k } hstep
    simpa [MongoStore.applyOps, List.replicate_succ, Reactions.addN] using ih

/-! ## Sample data used by the witnesses -/

/-- A concrete valid create-request body. -/
def sampleBody : CreateBody := { imageUrl := "https://x/a.png", caption := "hello" }

/-- The store obtained by creating one post in an empty store. -/
def sampleStore : MongoStore := (MongoStore.empty.createPost sampleBody).2

/-- The single document `sampleStore` holds. -/
def sampleDoc : ServerDoc :=
  { _id := freshOid 0
    imageUrl := "https://x/a.png"
    caption := "hello"
    reactions := Reactions.zero
    __v := 0 }

/-! ## Claim theorems -/

/-- C1: for every existing post and every reaction kind `k`, a successful
`react(p.id, k)` yields a post whose `k` counter is the prior value plus
exactly one with the other two counters unchanged (both for the model-level
`Post.addReaction` and for the server handler), and repeating the identical
call `N` times yields prior plus `N` — in particular `N` when the counter
started at zero, so two identical calls give two increments, not one. -/
theorem react_increments_exactly_one (p : Post) (st : MongoStore) (doc : ServerDoc)
    (k : ReactionType) (N : Nat) (h : st.findById doc._id = some doc) :
    ((p.addReaction k).reactions.get k = p.reactions.get k + 1 ∧
      (∀ k', k' ≠ k → (p.addReaction k).reactions.get k' = p.reactions.get k')) ∧
    (∃ dto st', st.reactToPost doc._id k.str = (.ok dto, st') ∧
      dto.reactions.get k = doc.reactions.get k + 1 ∧
      (∀ k', k' ≠ k → dto.reactions.get k' = doc.reactions.get k')) ∧
    (∃ docN,
      (st.applyOps (List.replicate N (.react doc._id k.str))).findById doc._id = some docN ∧
      docN.reactions.get k = doc.reactions.get k + (N : Int) ∧
      (∀ k', k' ≠ k → docN.reactions.get k' = doc.reactions.get k') ∧
      (doc.reactions.get k = 0 → docN.reactions.get k = (N : Int))) := by
  refine ⟨⟨Reactions.get_addReaction_self _ _, fun k' hk' =>
    Reactions.get_addReaction_of_ne _ hk'⟩, ?_, ?_⟩
  · refine ⟨_, _, reactToPost_found st doc k h, ?_, ?_⟩
    · exact Reactions.get_addReaction_self _ _
    · exact fun k' hk' => Reactions.get_addReaction_of_ne _ hk'
  · refine ⟨_, findById_after_react_iterate k N st doc h, ?_, ?_, ?_⟩
    · exact Reactions.get_addN_self k N _
    · exact fun k' hk' => Reactions.get_addN_of_ne hk' N _
    · intro hz
      rw [Reactions.get_addN_self k N _, hz, zero_add]

/-- Witness for C1 at the one-post sample store, `k = like`, `N = 2`. -/
theorem react_increments_exactly_one_witness :
    sampleStore.findById sampleDoc._id = some sampleDoc ∧
    ((((⟨7, "u", "c", Reactions.zero⟩ : Post).addReaction .like).reactions.get .like =
        (⟨7, "u", "c", Reactions.zero⟩ : Post).reactions.get .like + 1 ∧
      (∀ k', k' ≠ ReactionType.like →
        (((⟨7, "u", "c", Reactions.zero⟩ : Post).addReaction .like).reactions.get k' =
          (⟨7, "u", "c", Reactions.zero⟩ : Post).reactions.get k'))) ∧
    (∃ dto st', sampleStore.reactToPost sampleDoc._id ReactionType.like.str = (.ok dto, st') ∧
      dto.reactions.get .like = sampleDoc.reactions.get .like + 1 ∧
      (∀ k', k' ≠ ReactionType.like → dto.reactions.get k' = sampleDoc.reactions.get k')) ∧
    (∃ docN,
      (sampleStore.applyOps
          (List.replicate 2 (.react sampleDoc._id ReactionType.like.str))).findById
        sampleDoc._id = some docN ∧
      docN.reactions.get .like = sampleDoc.reactions.get .like + (2 : Int) ∧
      (∀ k', k' ≠ ReactionType.like → docN.reactions.get k' = sampleDoc.reactions.get k') ∧
      (sampleDoc.reactions.get .like = 0 → docN.reactions.get .like = (2 : Int)))) :=
  ⟨by decide,
    react_increments_exactly_one ⟨7, "u", "c", Reactions.zero⟩ sampleStore sampleDoc
      .like 2 (by decide)⟩

/-- C2: `react(id, kind)` rejects a kind outside the closed three-value set
with an invalid-input client error, regardless of the id — the kind check
precedes the lookup; with a valid kind and an unknown id it fails with
not-found; both failures return the store exactly as it was (no post
mutated); with a valid kind and an existing post it succeeds and returns
the post's DTO with that counter incremented. -/
theorem reactToPost_error_handling (st : MongoStore) (id reaction : String) :
    (parseReaction reaction = none ↔
      reaction ≠ "like" ∧ reaction ≠ "wow" ∧ reaction ≠ "laugh") ∧
    (parseReaction reaction = none →
      st.reactToPost id reaction = (.error (.invalidInput "Invalid reaction type"), st)) ∧
    (∀ k, parseReaction reaction = some k → st.findById id = none →
      st.reactToPost id reaction = (.error (.notFound "Post not found"), st)) ∧
    (∀ k doc, parseReaction reaction = some k → st.findById id = some doc →
      ∃ dto st', st.reactToPost id reaction = (.ok dto, st') ∧
        dto._id = doc._id ∧ dto.imageUrl = doc.imageUrl ∧ dto.caption = doc.caption ∧
        dto.reactions.get k = doc.reactions.get k + 1 ∧
        (∀ k', k' ≠ k → dto.reactions.get k' = doc.reactions.get k')) := by
  refine ⟨parseReaction_eq_none_iff reaction, ?_, ?_, ?_⟩
  · intro hnone
    simp only [MongoStore.reactToPost, hnone]
  · intro k hk hfind
    simp only [MongoStore.reactToPost, hk, hfind]
  · intro k doc hk hfind
    refine ⟨({ doc with reactions := doc.reactions.addReaction k } : ServerDoc).toDTO,
      { st with docs := saveDoc { doc with reactions := doc.reactions.addReaction k } st.docs },
      ?_, rfl, rfl, rfl, ?_, ?_⟩
    · simp only [MongoStore.reactToPost, hk, hfind]
    · exact Reactions.get_addReaction_self _ _
    · exact fun k' hk' => Reactions.get_addReaction_of_ne _ hk'

/-- Witness for C2: all three branches exercised at concrete inputs on the
one-post sample store — an invalid kind (with an existing id, showing the
kind check wins), an unknown id, and a successful reaction. -/
theorem reactToPost_error_handling_witness :
    (parseReaction "hug" = none) ∧
    (sampleStore.reactToPost sampleDoc._id "hug" =
      (.error (.invalidInput "Invalid reaction type"), sampleStore)) ∧
    (parseReaction "like" = some .like ∧ sampleStore.findById "zzz" = none) ∧
    (sampleStore.reactToPost "zzz" "like" =
      (.error (.notFound "Post not found"), sampleStore)) ∧
    (sampleStore.findById sampleDoc._id = some sampleDoc) ∧
    (∃ dto st', sampleStore.reactToPost sampleDoc._id "like" = (.ok dto, st') ∧
      dto._id = sampleDoc._id ∧ dto.imageUrl = sampleDoc.imageUrl ∧
      dto.caption = sampleDoc.caption ∧
      dto.reactions.get .like = sampleDoc.reactions.get .like + 1 ∧
      (∀ k', k' ≠ ReactionType.like → dto.reactions.get k' = sampleDoc.reactions.get k')) :=
  ⟨by decide,
    (reactToPost_error_handling sampleStore sampleDoc._id "hug").2.1 (by decide),
    ⟨by decide, by decide⟩,
    (reactToPost_error_handling sampleStore "zzz" "like").2.2.1 .like (by decide) (by decide),
    by decide,
    (reactToPost_error_handling sampleStore sampleDoc._id "like").2.2.2 .like sampleDoc
      (by decide) (by decide)⟩

/-- C3: a create call with an empty image URL or an empty caption fails
with an invalid-input client error carrying a human-readable message and
leaves the store exactly as it was — in the server handler (400
`"Missing imageUrl or caption"`, no document touched) and in the in-memory
controller (the required-fields message, state untouched). -/
theorem createPost_empty_input_fails (st : MongoStore) (body : CreateBody)
    (s : MemState) (imageUrl caption : String)
    (hbody : body.imageUrl = "" ∨ body.caption = "")
    (hmem : imageUrl = "" ∨ caption = "") :
    st.createPost body = (.error (.invalidInput "Missing imageUrl or caption"), st) ∧
    s.handleCreatePost imageUrl caption =
      (s, .invalidInput "Image URL and caption are required!") := by
  constructor
  · unfold MongoStore.createPost
    rcases hbody with h | h <;> simp [h]
  · unfold MemState.handleCreatePost
    rcases hmem with h | h <;> simp [h]

/-- Witness for C3: an empty image URL with a non-empty caption, against
the one-post sample store and the seeded in-memory controller. -/
theorem createPost_empty_input_fails_witness :
    (("" : String) = "" ∨ ("caption" : String) = "") ∧
    (sampleStore.createPost { imageUrl := "", caption := "caption" } =
      (.error (.invalidInput "Missing imageUrl or caption"), sampleStore) ∧
    (MemState.initial.seed).handleCreatePost "" "caption" =
      (MemState.initial.seed, .invalidInput "Image URL and caption are required!")) :=
  ⟨Or.inl rfl,
    createPost_empty_input_fails sampleStore { imageUrl := "", caption := "caption" }
      MemState.initial.seed "" "caption" (Or.inl rfl) (Or.inl rfl)⟩

/-- Every stored document's id was handed out by the store's id
allocator: the freshness invariant under which create provably never
collides with an existing id. -/
def MongoStore.oidInv (st : MongoStore) : Prop :=
  ∀ d ∈ st.docs, ∃ j, j < st.nextOid ∧ d._id = freshOid j

/-- C4: with both fields non-empty, create succeeds, returns a post
carrying exactly the given fields with all three counters zero (the schema
defaults) under a store-assigned id distinct from every existing id, and
persists it — a subsequent list returns the previous feed with the new
post appended, and the freshness invariant is maintained. -/
theorem createPost_valid_succeeds (st : MongoStore) (body : CreateBody)
    (h1 : body.imageUrl ≠ "") (h2 : body.caption ≠ "") (hinv : st.oidInv) :
    ∃ dto st', st.createPost body = (.ok dto, st') ∧
      dto.imageUrl = body.imageUrl ∧ dto.caption = body.caption ∧
      dto.reactions = Reactions.zero ∧
      (∀ d ∈ st.docs, d._id ≠ dto._id) ∧
      st'.listPosts = st.listPosts ++ [dto] ∧
      st'.oidInv := by
  refine ⟨(⟨freshOid st.nextOid, body.imageUrl, body.caption, Reactions.zero, 0⟩ :
      ServerDoc).toDTO,
    ⟨st.docs ++ [⟨freshOid st.nextOid, body.imageUrl, body.caption, Reactions.zero, 0⟩],
      st.nextOid + 1⟩,
    ?_, rfl, rfl, rfl, ?_, ?_, ?_⟩
  · unfold MongoStore.createPost
    simp [h1, h2]
  · intro d hd heq
    rcases hinv d hd with ⟨j, hj, hdj⟩
    have : j = st.nextOid := freshOid_injective (by rw [← hdj]; exact heq)
    omega
  · simp [MongoStore.listPosts]
  · intro d hd
    rcases List.mem_append.mp hd with hold | hnew
    · rcases hinv d hold with ⟨j, hj, hdj⟩
      refine ⟨j, ?_, hdj⟩
      show j < st.nextOid + 1
      omega
    · rcases List.mem_singleton.mp hnew with rfl
      refine ⟨st.nextOid, ?_, rfl⟩
      show st.nextOid < st.nextOid + 1
      omega

/-- Witness for C4: the sample body created in the empty store. -/
theorem createPost_valid_succeeds_witness :
    (sampleBody.imageUrl ≠ "" ∧ sampleBody.caption ≠ "" ∧ MongoStore.empty.oidInv) ∧
    (∃ dto st', MongoStore.empty.createPost sampleBody = (.ok dto, st') ∧
      dto.imageUrl = sampleBody.imageUrl ∧ dto.caption = sampleBody.caption ∧
      dto.reactions = Reactions.zero ∧
      (∀ d ∈ MongoStore.empty.docs, d._id ≠ dto._id) ∧
      st'.listPosts = MongoStore.empty.listPosts ++ [dto] ∧
      st'.oidInv) :=
  ⟨⟨by decide, by decide, by simp [MongoStore.oidInv, MongoStore.empty]⟩,
    createPost_valid_succeeds MongoStore.empty sampleBody (by decide) (by decide)
      (by simp [MongoStore.oidInv, MongoStore.empty])⟩

/-- C8: a `PostDTO` is exhausted by its four contract fields — two DTOs
agreeing on id, image URL, caption and the three reaction counts are the
same DTO — each field of the DTO built at the boundary is exactly the
corresponding document field (the id a string), and the server-internal
version key `__v` never influences the DTO, so internal metadata cannot
cross the boundary. -/
theorem dto_exactly_four_fields (d1 d2 : PostDTO) (doc : ServerDoc) (v : Nat)
    (h1 : d1._id = d2._id) (h2 : d1.imageUrl = d2.imageUrl)
    (h3 : d1.caption = d2.caption) (h4 : d1.reactions = d2.reactions) :
    d1 = d2 ∧
    ServerDoc.toDTO { doc with __v := v } = doc.toDTO ∧
    doc.toDTO._id = doc._id ∧ doc.toDTO.imageUrl = doc.imageUrl ∧
    doc.toDTO.caption = doc.caption ∧ doc.toDTO.reactions = doc.reactions := by
  refine ⟨?_, rfl, rfl, rfl, rfl, rfl⟩
  cases d1
  cases d2
  simp_all

/-- Witness for C8 at the sample document with an internal version key of
`42`. -/
theorem dto_exactly_four_fields_witness :
    (sampleDoc.toDTO._id = sampleDoc.toDTO._id ∧
      sampleDoc.toDTO.imageUrl = sampleDoc.toDTO.imageUrl ∧
      sampleDoc.toDTO.caption = sampleDoc.toDTO.caption ∧
      sampleDoc.toDTO.reactions = sampleDoc.toDTO.reactions) ∧
    (sampleDoc.toDTO = sampleDoc.toDTO ∧
      ServerDoc.toDTO { sampleDoc with __v := 42 } = sampleDoc.toDTO ∧
      sampleDoc.toDTO._id = sampleDoc._id ∧
      sampleDoc.toDTO.imageUrl = sampleDoc.imageUrl ∧
      sampleDoc.toDTO.caption = sampleDoc.caption ∧
      sampleDoc.toDTO.reactions = sampleDoc.reactions) :=
  ⟨⟨rfl, rfl, rfl, rfl⟩,
    dto_exactly_four_fields sampleDoc.toDTO sampleDoc.toDTO sampleDoc 42 rfl rfl rfl rfl⟩

/-- C10: the create handler destructures only `imageUrl` and `caption`
from the request body, so two bodies agreeing on those two fields — even
when one smuggles a `reactions` object or arbitrary extra keys — produce
identical results on any store, and every successfully created post's
counters are the schema defaults, all zero. -/
theorem createPost_reads_only_imageUrl_caption (st : MongoStore) (b1 b2 : CreateBody)
    (h1 : b1.imageUrl = b2.imageUrl) (h2 : b1.caption = b2.caption) :
    st.createPost b1 = st.createPost b2 ∧
    (∀ dto st', st.createPost b1 = (.ok dto, st') → dto.reactions = Reactions.zero) := by
  constructor
  · unfold MongoStore.createPost
    rw [h1, h2]
  · intro dto st' h
    unfold MongoStore.createPost at h
    split at h
    · simp at h
    · rw [Prod.mk.injEq] at h
      rcases h with ⟨hok, _⟩
      rw [Except.ok.injEq] at hok
      rw [← hok]
      rfl

/-- A create-request body that agrees with `sampleBody` on `imageUrl` and
`caption` but additionally smuggles a client-supplied `reactions` object
and an extra key. -/
def sneakyBody : CreateBody :=
  { imageUrl := "https://x/a.png"
    caption := "hello"
    reactions := some ⟨99, 5, 7⟩
    extra := [("admin", "true")] }

/-- Witness for C10: the smuggling body behaves exactly as the plain body,
and the created counters are zero. -/
theorem createPost_reads_only_imageUrl_caption_witness :
    (sneakyBody.imageUrl = sampleBody.imageUrl ∧
      sneakyBody.caption = sampleBody.caption) ∧
    (MongoStore.empty.createPost sneakyBody = MongoStore.empty.createPost sampleBody ∧
    (∀ dto st', MongoStore.empty.createPost sneakyBody = (.ok dto, st') →
      dto.reactions = Reactions.zero)) :=
  ⟨⟨rfl, rfl⟩,
    createPost_reads_only_imageUrl_caption MongoStore.empty sneakyBody sampleBody rfl rfl⟩

/-- The store after a create request: unchanged on invalid input, else the
old documents with the fresh document appended. -/
theorem createPost_store_cases (st : MongoStore) (body : CreateBody) :
    (st.createPost body).2 = st ∨
    (st.createPost body).2 =
      ⟨st.docs ++ [⟨freshOid st.nextOid, body.imageUrl, body.caption, Reactions.zero, 0⟩],
        st.nextOid + 1⟩ := by
  unfold MongoStore.createPost
  split
  · left; rfl
  · right; rfl

/-- The store after a react request: unchanged on either failure, else the
found document replaced by its incremented copy. -/
theorem reactToPost_store_cases (st : MongoStore) (id reaction : String) :
    (st.reactToPost id reaction).2 = st ∨
    ∃ k doc, parseReaction reaction = some k ∧ st.findById id = some doc ∧
      (st.reactToPost id reaction).2 =
        { st with docs := saveDoc { doc with reactions := doc.reactions.addReaction k } st.docs } := by
  unfold MongoStore.reactToPost
  split
  · left; rfl
  · next k hk =>
    split
    · left; rfl
    · next doc hdoc => right; exact ⟨k, doc, hk, hdoc, rfl⟩

theorem nonneg_addReaction {r : Reactions} (hr : ∀ k', (0 : Int) ≤ r.get k')
    (k : ReactionType) : ∀ k', (0 : Int) ≤ (r.addReaction k).get k' := by
  intro k'
  by_cases h : k' = k
  · subst h
    rw [Reactions.get_addReaction_self]
    have := hr k'
    omega
  · rw [Reactions.get_addReaction_of_ne _ h]
    exact hr k'

/-- One request preserves "every stored counter is non-negative". -/
theorem nonneg_applyOp {st : MongoStore}
    (hst : ∀ d ∈ st.docs, ∀ k', (0 : Int) ≤ d.reactions.get k') (op : ServerOp) :
    ∀ d ∈ (st.applyOp op).docs, ∀ k', (0 : Int) ≤ d.reactions.get k' := by
  cases op with
  | create body =>
    rcases createPost_store_cases st body with hc | hc <;>
      simp only [MongoStore.applyOp, hc]
    · exact hst
    · intro d hd
      rcases List.mem_append.mp hd with hold | hnew
      · exact hst d hold
      · rcases List.mem_singleton.mp hnew with rfl
        intro k'
        cases k' <;> simp [Reactions.get, Reactions.zero]
  | react id reaction =>
    rcases reactToPost_store_cases st id reaction with hc | ⟨k, doc, _, hdoc, hc⟩ <;>
      simp only [MongoStore.applyOp, hc]
    · exact hst
    · intro d hd
      rcases mem_saveDoc _ _ d hd with hold | rfl
      · exact hst d hold
      · exact nonneg_addReaction (hst doc (findById_mem hdoc)) k

theorem nonneg_applyOps :
    ∀ (ops : List ServerOp) (st : MongoStore),
      (∀ d ∈ st.docs, ∀ k', (0 : Int) ≤ d.reactions.get k') →
      ∀ d ∈ (st.applyOps ops).docs, ∀ k', (0 : Int) ≤ d.reactions.get k'
  | [], _, hst => hst
  | op :: ops, st, hst => by
    have hstep := nonneg_applyOp hst op
    simpa [MongoStore.applyOps] using nonneg_applyOps ops (st.applyOp op) hstep

/-- A document present before a request is present after it, each counter
unchanged or incremented by exactly one. -/
theorem findById_applyOp_some (st : MongoStore) (op : ServerOp) (id : String)
    (doc : ServerDoc) (h : st.findById id = some doc) :
    ∃ doc', (st.applyOp op).findById id = some doc' ∧
      ∀ k, doc'.reactions.get k = doc.reactions.get k ∨
        doc'.reactions.get k = doc.reactions.get k + 1 := by
  cases op with
  | create body =>
    rcases createPost_store_cases st body with hc | hc <;>
      simp only [MongoStore.applyOp, hc]
    · exact ⟨doc, h, fun k => Or.inl rfl⟩
    · refine ⟨doc, ?_, fun k => Or.inl rfl⟩
      have h2 : List.find? (fun d => decide (d._id = id)) st.docs = some doc := h
      show List.find? _ (st.docs ++ _) = some doc
      rw [List.find?_append, h2]
      rfl
  | react rid reaction =>
    rcases reactToPost_store_cases st rid reaction with hc | ⟨k, rdoc, _, hrdoc, hc⟩ <;>
      simp only [MongoStore.applyOp, hc]
    · exact ⟨doc, h, fun k => Or.inl rfl⟩
    · by_cases hid : id = rid
      · have hdoc_eq : rdoc = doc := by
          rw [hid] at h
          rw [h] at hrdoc
          exact (Option.some.inj hrdoc).symm
        subst hdoc_eq
        refine ⟨{ rdoc with reactions := rdoc.reactions.addReaction k }, ?_, ?_⟩
        · show List.find? _ (saveDoc _ st.docs) = _
          exact find?_saveDoc_key { rdoc with reactions := rdoc.reactions.addReaction k }
            rdoc id ((findById_id hrdoc).trans hid.symm) st.docs h
        · intro k'
          by_cases hkk : k' = k
          · subst hkk
            right
            exact Reactions.get_addReaction_self _ _
          · left
            exact Reactions.get_addReaction_of_ne _ hkk
      · refine ⟨doc, ?_, fun k => Or.inl rfl⟩
        have hne : id ≠ ({ rdoc with reactions := rdoc.reactions.addReaction k } : ServerDoc)._id := by
          have : rdoc._id = rid := findById_id hrdoc
          simpa [this] using hid
        show List.find? _ (saveDoc _ st.docs) = some doc
        rw [find?_saveDoc_of_ne _ _ hne st.docs]
        exact h

/-- Over a whole request sequence, a present document persists and each of
its counters is monotone non-decreasing. -/
theorem findById_applyOps_mono (id : String) :
    ∀ (ops : List ServerOp) (st : MongoStore) (doc : ServerDoc),
      st.findById id = some doc →
      ∃ doc', (st.applyOps ops).findById id = some doc' ∧
        ∀ k, doc.reactions.get k ≤ doc'.reactions.get k
  | [], st, doc, h => ⟨doc, h, fun _ => le_refl _⟩
  | op :: ops, st, doc, h => by
    rcases findById_applyOp_some st op id doc h with ⟨doc₁, h₁, hstep⟩
    rcases findById_applyOps_mono id ops (st.applyOp op) doc₁ h₁ with ⟨doc', h', hmono⟩
    refine ⟨doc', by simpa [MongoStore.applyOps] using h', fun k => ?_⟩
    rcases hstep k with he | he <;> have := hmono k <;> omega

/-- C5: every reachable post always carries exactly the three reaction
keys (the counter record's full shape) with non-negative counts; any one
request changes each counter of a surviving post by zero or by exactly
one, never decreasing or resetting it; and over any request sequence each
counter of a surviving post is monotone non-decreasing. -/
theorem post_reactions_invariant (ops tail : List ServerOp) (st : MongoStore)
    (op : ServerOp) (id : String) (doc doc' : ServerDoc) (k : ReactionType)
    (h : st.findById id = some doc)
    (h' : (st.applyOp op).findById id = some doc') :
    (∀ d ∈ (MongoStore.empty.applyOps ops).docs, ∀ k', (0 : Int) ≤ d.reactions.get k') ∧
    (doc'.reactions.get k = doc.reactions.get k ∨
      doc'.reactions.get k = doc.reactions.get k + 1) ∧
    (∃ docN, (st.applyOps tail).findById id = some docN ∧
      ∀ k', doc.reactions.get k' ≤ docN.reactions.get k') := by
  refine ⟨nonneg_applyOps ops MongoStore.empty (by simp [MongoStore.empty]), ?_, ?_⟩
  · rcases findById_applyOp_some st op id doc h with ⟨doc₁, h₁, hstep⟩
    rw [h'] at h₁
    cases h₁
    exact hstep k
  · exact findById_applyOps_mono id tail st doc h

/-- Witness for C5: a two-request history from the empty store, one like
reaction as the step, and a wow reaction as the continuation, all on the
sample post. -/
theorem post_reactions_invariant_witness :
    (sampleStore.findById sampleDoc._id = some sampleDoc ∧
      (sampleStore.applyOp (.react sampleDoc._id "like")).findById sampleDoc._id =
        some (⟨freshOid 0, "https://x/a.png", "hello", ⟨1, 0, 0⟩, 0⟩ : ServerDoc)) ∧
    ((∀ d ∈ (MongoStore.empty.applyOps
        [.create sampleBody, .react (freshOid 0) "like"]).docs,
      ∀ k', (0 : Int) ≤ d.reactions.get k') ∧
    ((⟨freshOid 0, "https://x/a.png", "hello", ⟨1, 0, 0⟩, 0⟩ : ServerDoc).reactions.get .like =
        sampleDoc.reactions.get .like ∨
      (⟨freshOid 0, "https://x/a.png", "hello", ⟨1, 0, 0⟩, 0⟩ : ServerDoc).reactions.get .like =
        sampleDoc.reactions.get .like + 1) ∧
    (∃ docN, (sampleStore.applyOps [.react sampleDoc._id "wow"]).findById sampleDoc._id =
        some docN ∧
      ∀ k', sampleDoc.reactions.get k' ≤ docN.reactions.get k')) :=
  ⟨⟨by decide, by decide⟩,
    post_reactions_invariant [.create sampleBody, .react (freshOid 0) "like"]
      [.react sampleDoc._id "wow"] sampleStore (.react sampleDoc._id "like")
      sampleDoc._id sampleDoc (⟨freshOid 0, "https://x/a.png", "hello", ⟨1, 0, 0⟩, 0⟩ : ServerDoc)
      .like (by decide) (by decide)⟩

/-! ## In-memory variant: id uniqueness and ordering -/

/-- One user gesture handled by the in-memory controller. -/
inductive MemOp where
  | create (imageUrl caption : String)
  | react (postId : Nat) (reaction : ReactionType)
deriving DecidableEq, Repr

/-- The controller state after one gesture. -/
def MemState.applyMemOp (s : MemState) : MemOp → MemState
  | .create imageUrl caption => (s.handleCreatePost imageUrl caption).1
  | .react postId reaction => s.handleReact postId reaction

/-- The controller state after a sequence of gestures. -/
def MemState.applyMemOps (s : MemState) (ops : List MemOp) : MemState :=
  ops.foldl MemState.applyMemOp s

/-- The id invariant of the in-memory feed: every held id is below the
auto-increment counter, and the held ids are pairwise distinct. -/
def MemState.idInv (s : MemState) : Prop :=
  (∀ p ∈ s.posts, p.id < s.nextId) ∧ (s.posts.map Post.id).Pairwise (· ≠ ·)

theorem reactFirst_map_id (postId : Nat) (r : ReactionType) :
    ∀ ps : List Post, (reactFirst postId r ps).map Post.id = ps.map Post.id
  | [] => rfl
  | p :: ps => by
    by_cases h : p.id = postId
    · simp [reactFirst, h, Post.addReaction]
    · simp [reactFirst, h, reactFirst_map_id postId r ps]

theorem idInv_applyMemOp {s : MemState} (hs : s.idInv) (op : MemOp) :
    (s.applyMemOp op).idInv := by
  cases op with
  | create imageUrl caption =>
    show ((s.handleCreatePost imageUrl caption).1).idInv
    unfold MemState.handleCreatePost
    split
    · exact hs
    · constructor
      · intro p hp
        rcases List.mem_cons.mp hp with rfl | hmem
        · show s.nextId < s.nextId + 1
          omega
        · have := hs.1 p hmem
          show p.id < s.nextId + 1
          omega
      · rw [List.map_cons, List.pairwise_cons]
        refine ⟨?_, hs.2⟩
        intro b hb
        rcases List.mem_map.mp hb with ⟨q, hq, rfl⟩
        have := hs.1 q hq
        show s.nextId ≠ q.id
        omega
  | react postId reaction =>
    show (s.handleReact postId reaction).idInv
    constructor
    · intro p hp
      have hpid : p.id ∈ (reactFirst postId reaction s.posts).map Post.id :=
        List.mem_map_of_mem Post.id hp
      rw [reactFirst_map_id] at hpid
      rcases List.mem_map.mp hpid with ⟨q, hq, hqid⟩
      have := hs.1 q hq
      show p.id < s.nextId
      omega
    · show ((reactFirst postId reaction s.posts).map Post.id).Pairwise (· ≠ ·)
      rw [reactFirst_map_id]
      exact hs.2

theorem idInv_applyMemOps :
    ∀ (ops : List MemOp) (s : MemState), s.idInv → (s.applyMemOps ops).idInv
  | [], s, hs => hs
  | op :: ops, s, hs => by
    have hstep := idInv_applyMemOp hs op
    simpa [MemState.applyMemOps] using
      idInv_applyMemOps ops (s.applyMemOp op) hstep

/-- C6: the in-memory controller starts its auto-increment counter at `1`,
the two seed posts receive ids `1` and `2`, and after any sequence of
gestures (creates and reactions) from the seeded start the ids held by the
feed are pairwise distinct — every create assigns a never-before-seen
id. -/
theorem ids_unique_in_memory (ops : List MemOp) :
    MemState.initial.nextId = 1 ∧
    (MemState.initial.seed).posts.map Post.id = [1, 2] ∧
    (((MemState.initial.seed).applyMemOps ops).posts.map Post.id).Pairwise (· ≠ ·) := by
  refine ⟨rfl, rfl, ?_⟩
  have hseed : (MemState.initial.seed).idInv := by
    constructor
    · intro p hp
      rcases List.mem_cons.mp hp with rfl | hp
      · show (1 : Nat) < 3
        omega
      · rcases List.mem_cons.mp hp with rfl | hp
        · show (2 : Nat) < 3
          omega
        · simp at hp
    · decide
  exact (idInv_applyMemOps ops _ hseed).2

/-- The controller state after a sequence of create submissions. -/
def MemState.runCreates (s : MemState) : List (String × String) → MemState
  | [] => s
  | (u, c) :: rest => ((s.handleCreatePost u c).1).runCreates rest

/-- The posts a sequence of valid create submissions constructs, in
creation order, carrying the ids the auto-increment counter assigns. -/
def mkPosts (nextId : Nat) : List (String × String) → List Post
  | [] => []
  | (u, c) :: rest =>
      { id := nextId, imageUrl := u, caption := c } :: mkPosts (nextId + 1) rest

theorem runCreates_valid :
    ∀ (inputs : List (String × String)) (s : MemState),
      (∀ p ∈ inputs, p.1 ≠ "" ∧ p.2 ≠ "") →
      (s.runCreates inputs).posts = (mkPosts s.nextId inputs).reverse ++ s.posts
  | [], s, _ => by simp [MemState.runCreates, mkPosts]
  | (u, c) :: rest, s, h => by
    have hu := (h (u, c) (List.mem_cons_self _ _)).1
    have hc := (h (u, c) (List.mem_cons_self _ _)).2
    have hstep : (s.handleCreatePost u c).1 =
        ⟨{ id := s.nextId, imageUrl := u, caption := c } :: s.posts, s.nextId + 1⟩ := by
      unfold MemState.handleCreatePost
      simp [hu, hc]
    have ih := runCreates_valid rest
      ⟨{ id := s.nextId, imageUrl := u, caption := c } :: s.posts, s.nextId + 1⟩
      (fun p hp => h p (List.mem_cons_of_mem _ hp))
    rw [MemState.runCreates, hstep, ih]
    simp [mkPosts, List.append_assoc]

/-- C7: the in-memory feed is newest-first — a successful create prepends
the new post, and any sequence of valid creates leaves the feed holding
the created posts in reverse creation order in front of the prior feed —
while the persisted variant's list returns the store's natural insertion
order without sorting: a create appends its document at the end. -/
theorem feed_newest_first (s : MemState) (inputs : List (String × String))
    (st : MongoStore) (body : CreateBody) (imageUrl caption : String)
    (h1 : imageUrl ≠ "") (h2 : caption ≠ "")
    (hinputs : ∀ p ∈ inputs, p.1 ≠ "" ∧ p.2 ≠ "")
    (h3 : body.imageUrl ≠ "") (h4 : body.caption ≠ "") :
    (s.handleCreatePost imageUrl caption).1.posts =
      { id := s.nextId, imageUrl := imageUrl, caption := caption } :: s.posts ∧
    (s.runCreates inputs).posts = (mkPosts s.nextId inputs).reverse ++ s.posts ∧
    (∃ dto, (st.createPost body).1 = .ok dto ∧
      (st.createPost body).2.listPosts = st.listPosts ++ [dto]) := by
  refine ⟨?_, runCreates_valid inputs s hinputs, ?_⟩
  · unfold MemState.handleCreatePost
    simp [h1, h2]
  · refine ⟨(⟨freshOid st.nextOid, body.imageUrl, body.caption, Reactions.zero, 0⟩ :
      ServerDoc).toDTO, ?_, ?_⟩
    · unfold MongoStore.createPost
      simp [h3, h4]
    · unfold MongoStore.createPost
      simp [h3, h4, MongoStore.listPosts]

/-- Witness for C7: two valid creates on the seeded in-memory controller
and one valid create on the one-post sample store. -/
theorem feed_newest_first_witness :
    (("u0" : String) ≠ "" ∧ ("c0" : String) ≠ "" ∧
      (∀ p ∈ [(("u1" : String), ("c1" : String)), ("u2", "c2")], p.1 ≠ "" ∧ p.2 ≠ "") ∧
      sampleBody.imageUrl ≠ "" ∧ sampleBody.caption ≠ "") ∧
    (((MemState.initial.seed).handleCreatePost "u0" "c0").1.posts =
      { id := 3, imageUrl := "u0", caption := "c0" } :: (MemState.initial.seed).posts ∧
    ((MemState.initial.seed).runCreates [("u1", "c1"), ("u2", "c2")]).posts =
      (mkPosts 3 [("u1", "c1"), ("u2", "c2")]).reverse ++ (MemState.initial.seed).posts ∧
    (∃ dto, (sampleStore.createPost sampleBody).1 = .ok dto ∧
      (sampleStore.createPost sampleBody).2.listPosts = sampleStore.listPosts ++ [dto])) :=
  ⟨⟨by decide, by decide, by decide, by decide, by decide⟩,
    feed_newest_first MemState.initial.seed [("u1", "c1"), ("u2", "c2")] sampleStore
      sampleBody "u0" "c0" (by decide) (by decide) (by decide) (by decide) (by decide)⟩

/-! ## Concurrency: the react handler's two phases

The react handler suspends twice: `await PostModel.findById(id)` (read)
and `await doc.save()` (write). Between the two, other requests can run,
so a schedule of concurrent handlers is an interleaving of read and write
phases. -/

/-- The read phase of the react handler: the in-flight request captures
the document as stored at that instant. -/
def reactRead (st : MongoStore) (id : String) : Option ServerDoc := st.findById id

/-- The write phase: `doc.reactions[reaction] = (doc.reactions[reaction]
?? 0) + 1` on the captured document followed by `doc.save()`, which
overwrites the stored document; the 200 response carries the captured
count plus one. -/
def reactWrite (st : MongoStore) (captured : ServerDoc) (k : ReactionType) :
    MongoStore × PostDTO :=
  let updated : ServerDoc := { captured with reactions := captured.reactions.addReaction k }
  ({ st with docs := saveDoc updated st.docs }, updated.toDTO)

/-- Sanity tie: an uninterleaved read phase followed immediately by its
write phase is exactly the sequential handler `reactToPost`. -/
theorem reactToPost_eq_read_write (st : MongoStore) (id : String) (k : ReactionType)
    (doc : ServerDoc) (h : reactRead st id = some doc) :
    st.reactToPost id k.str = (.ok (reactWrite st doc k).2, (reactWrite st doc k).1) := by
  unfold MongoStore.reactToPost reactWrite
  rw [parseReaction_str]
  unfold reactRead at h
  rw [h]

/-- C9 counterexample: two concurrent like-reactions on the same post,
interleaved read–read–write–write. Both handlers capture the post at
count 0, both save count 1 and both answer 200 with count 1, and the
persisted count ends at 1 — the claimed final value, prior plus the
number of successful calls (0 + 2), does not hold: one increment is
silently lost. -/
theorem react_lost_update :
    reactRead sampleStore sampleDoc._id = some sampleDoc ∧
    ((reactWrite sampleStore sampleDoc .like).2).reactions.get .like = 1 ∧
    ((reactWrite (reactWrite sampleStore sampleDoc .like).1
        sampleDoc .like).2).reactions.get .like = 1 ∧
    ((reactWrite (reactWrite sampleStore sampleDoc .like).1
        sampleDoc .like).1).findById sampleDoc._id =
      some (⟨freshOid 0, "https://x/a.png", "hello", ⟨1, 0, 0⟩, 0⟩ : ServerDoc) ∧
    (⟨freshOid 0, "https://x/a.png", "hello", ⟨1, 0, 0⟩, 0⟩ : ServerDoc).reactions.get .like ≠
      sampleDoc.reactions.get .like + 2 := by
  decide

end MiniGramm
